import Mathlib

/-!
Verification of the burn/ISO job engine of the pysideCDBurner repository.

The Lean definitions below are shallow embeddings of the Python source:

* `effective_mask`       — `BurnWorker._effective_mask` / `IsoCreateWorker._effective_mask`
                           (src/workers.py, identical bodies), together with the
                           number of informational log notices it emits.
* `is_over_capacity`     — `MainWindow._is_over_capacity` (src/main_window.py).
* `estimate_image_size`  — `MainWindow._estimate_image_size` (src/main_window.py).
* `configure_size_limits`— `BurnWorker._configure_size_limits` /
                           `IsoCreateWorker._configure_size_limits` (src/workers.py).
* `emit_progress_info`   — the nested `_emit_progress_info` closure of
                           `BurnWorker.run` (src/workers.py).
* `stage_all` and the done/UI handlers — the staging loop of `BurnWorker.run`,
  its exception handler, and `MainWindow._on_done`.
* `safe_copy_into_staging` with `unique_name` and `prune_list` —
  `safe_copy_into_staging` / `_copy_tree_chunked` (src/utils.py).

Machine integers are modelled as `Nat`/`Int` (Python integers are unbounded, so
no wrap-around is involved).  The two places where the Python code multiplies an
int by a float constant (`int(cap * 0.0025)`, `int(size * 0.07)`) are modelled
by exact rational arithmetic, `cap * 25 / 10000` and `size * 7 / 100` with floor
division: for every operand below ~10^12 (far beyond any optical-media size) the
double-precision product is within 10^-4 of the exact value while the exact
value's distance to the nearest other integer boundary is at least 10^-4, so the
truncations agree exactly.
-/

namespace CDBurner

/-- Filesystem mask bits, from src/constants.py. -/
def FS_ISO9660 : Nat := 1

/-- Joliet bit, from src/constants.py. -/
def FS_JOLIET : Nat := 2

/-- UDF bit, from src/constants.py. -/
def FS_UDF : Nat := 4

/-- `self._max_iso_file_bytes = 4 * 1024**3` (src/workers.py line 42). -/
def max_iso_file_bytes : Nat := 4 * 1024 ^ 3

/-- Python truthiness guard `self.file_system_mask or (FS_ISO9660 | FS_JOLIET)`
(src/workers.py line 269): a zero (or `None`, folded into zero) mask falls back
to ISO9660+Joliet. -/
def normalize_mask (m : Nat) : Nat :=
  if m = 0 then FS_ISO9660 ||| FS_JOLIET else m

/-- `BurnWorker._effective_mask` (src/workers.py lines 268-280; the body of
`IsoCreateWorker._effective_mask`, lines 484-496, is identical).  Returns the
effective mask together with the number of informational log notices emitted
(the code emits one `self._log(...)` call exactly when it escalates). -/
def effective_mask (file_system_mask largest_file : Nat) : Nat × Nat :=
  let mask := normalize_mask file_system_mask
  if largest_file ≥ max_iso_file_bytes then
    -- `iso_bits = mask & (FS_ISO9660 | FS_JOLIET); if iso_bits or not (mask & FS_UDF):`
    if mask &&& (FS_ISO9660 ||| FS_JOLIET) ≠ 0 ∨ mask &&& FS_UDF = 0 then
      (FS_UDF, 1)
    else
      (mask, 0)
  else
    (mask, 0)

/-- `self._capacity_headroom_bytes = 32 * 1024 * 1024` (src/main_window.py line 230). -/
def capacity_headroom_bytes : Nat := 32 * 1024 * 1024

/-- `MainWindow._is_over_capacity` (src/main_window.py lines 1391-1394), with the
capacity passed explicitly.  `int(cap * 0.0025)` is modelled exactly as
`cap * 25 / 10000` (see the header comment); Python's `max(0, cap - headroom)`
is `Nat` truncated subtraction. -/
def is_over_capacity (size cap : Nat) : Bool :=
  if cap = 0 then false          -- `if not self._media_capacity_bytes: return False`
  else
    let headroom := max capacity_headroom_bytes (cap * 25 / 10000)
    decide (size > cap - headroom)

/-- `MainWindow._estimate_image_size` (src/main_window.py lines 1317-1327).  The
two mode predicates `self._use_iso_input()` and `self._is_create_iso_mode()` are
passed as booleans; `int(size * 0.07)` is modelled exactly as `size * 7 / 100`.
Content sizes are sums of file sizes, hence `Nat` (so `size <= 0` is `size = 0`). -/
def estimate_image_size (use_iso_input is_create_iso : Bool) (size : Nat) : Nat :=
  if size = 0 then 0
  else if use_iso_input && !is_create_iso then size
  else if is_create_iso then size
  else size + max (128 * 1024 * 1024) (size * 7 / 100)

/-- Python truthiness guard `int(getattr(fsi, "BlockSize", 2048) or 2048)`
(src/workers.py line 243): a zero block size falls back to 2048. -/
def effective_block_size (bs : Nat) : Nat :=
  if bs = 0 then 2048 else bs

/-- `est_blocks = (total_bytes + block_size - 1) // block_size` (src/workers.py line 246). -/
def est_blocks (total_bytes block_size : Nat) : Nat :=
  (total_bytes + block_size - 1) / block_size

/-- `BurnWorker._configure_size_limits` (src/workers.py lines 237-253; the body
of `IsoCreateWorker._configure_size_limits`, lines 453-469, is identical).
`current` is the `FreeMediaBlocks` value read back from the image object; the
result is the new `FreeMediaBlocks` value
`max(current_blocks, int(est_blocks * 2 + (1024 * 1024) // block_size))`. -/
def configure_size_limits (total_bytes block_size current : Nat) : Nat :=
  let b := effective_block_size block_size
  max current (est_blocks total_bytes b * 2 + (1024 * 1024) / b)

/-- Repeated calls of `_configure_size_limits` within one job: each call reads
the allowance left by the previous one. -/
def allowance_after (block_size : Nat) (totals : List Nat) (init : Nat) : Nat :=
  totals.foldl (fun cur t => configure_size_limits t block_size cur) init

/-! ### Progress/rate estimator (`BurnWorker.run._emit_progress_info`) -/

/-- Mutable state threaded through `_emit_progress_info` (src/workers.py lines
121-123 and 125-156): the `deque(maxlen=8)` of speed samples, and the
`last_progress` / `last_time` nonlocals. -/
structure RateState where
  speedHistory : List ℚ
  lastProgress : ℚ
  lastTime : ℚ
  deriving DecidableEq

/-- Is `needle` a prefix of `hay` (character lists)? -/
def chars_has_pref : List Char → List Char → Bool
  | _, [] => true
  | [], _ :: _ => false
  | a :: as, b :: bs => a = b && chars_has_pref as bs

/-- Python substring containment `needle in hay` (character lists). -/
def chars_has_sub : List Char → List Char → Bool
  | [], needle => needle.isEmpty
  | a :: t, needle => chars_has_pref (a :: t) needle || chars_has_sub t needle

/-- Python's `str.lower()` on the ASCII status labels, character by character. -/
def lower_chars (l : List Char) : List Char :=
  l.map Char.toLower

/-- `writing = (status and "writing data" in status.lower()) or status is None`
(src/workers.py line 127).  `status : Option String` models the nullable status
argument; for the empty string Python's `and` short-circuits to falsy, which
coincides with substring containment failing. -/
def is_writing_status (status : Option String) : Bool :=
  match status with
  | none => true
  | some s => chars_has_sub (lower_chars s.toList) "writing data".toList

/-- Appending to the `deque(maxlen=8)` speed history (src/workers.py line 41):
when full, the oldest sample is dropped. -/
def push_speed_sample (h : List ℚ) (x : ℚ) : List ℚ :=
  let h2 := h ++ [x]
  if h2.length > 8 then h2.drop (h2.length - 8) else h2

/-- The nested `_emit_progress_info(percent, status)` closure of
`BurnWorker.run` (src/workers.py lines 125-156).  Parameters fixed at closure
creation: `total` (= `self._total_bytes_est`), `start_time`, `max_speed`
(= `max_speed_bytes`, `none` when no write speed is configured — the code's
truthiness test `if max_speed_bytes` cannot see 0 because a zero write speed is
already mapped to `None` at line 120).  Wall-clock values are exact rationals;
the float epsilon `1e-6` is the rational `1/1000000`.  Returns the new state and
the `(speed, eta)` pair passed to `progress_info.emit`. -/
def emit_progress_info (total start_time : ℚ) (max_speed : Option ℚ)
    (st : RateState) (now percent : ℚ) (status : Option String) :
    RateState × (ℚ × Option ℚ) :=
  if !(is_writing_status status) then
    ({ st with speedHistory := [] }, (0, none))
  else if total ≤ 0 then
    (st, (0, none))
  else
    let pct := max 0 (min 100 percent)
    let deltaPct := pct - st.lastProgress
    let st2 :=
      if deltaPct > 0 then
        let bytesDelta := total * (deltaPct / 100)
        let elapsed := max (now - st.lastTime) (1 / 1000000)
        let instSpeed := bytesDelta / elapsed
        { speedHistory := push_speed_sample st.speedHistory instSpeed,
          lastProgress := pct, lastTime := now }
      else st
    let speed0 :=
      if st2.speedHistory.isEmpty then
        let elapsedTotal := max (now - start_time) (1 / 1000000)
        (total * pct / 100) / elapsedTotal
      else
        st2.speedHistory.sum / (st2.speedHistory.length : ℚ)
    let speed :=
      match max_speed with
      | some m => if speed0 > m then m else speed0
      | none => speed0
    let doneBytes := total * pct / 100
    let remaining := max 0 (total - doneBytes)
    let eta := if speed > 0 then some (remaining / speed) else none
    (st2, (speed, eta))

/-! ### Cooperative cancellation (staging loop, done handler, UI handler) -/

/-- The cooperative stop flag.  `request_stop` only ever sets
`self._stop_requested` to `True` and nothing clears it during a run, so the flag
is a monotone function of the check counter: it is observed `true` at check
index `k` exactly when the stop request happened at or before check `t ≤ k`
(`t = stop_at`, with `stop_at` larger than every check index when no stop is
requested). -/
def stop_flag (stop_at k : Nat) : Bool :=
  decide (stop_at ≤ k)

/-- `_copy_file_chunked` (src/utils.py lines 40-51) for a file of `c` 1-MiB
chunks, with the stop check performed before every chunk read and once more
before the final empty read.  `k` is the index of the next stop check; returns
whether `RuntimeError("Stopped by user")` was raised and the next check index. -/
def copy_file_chunked (c stop_at k : Nat) : Bool × Nat :=
  match c with
  | 0 => if stop_flag stop_at k then (true, k) else (false, k + 1)
  | c' + 1 => if stop_flag stop_at k then (true, k) else copy_file_chunked c' stop_at (k + 1)

/-- The staging loop of `BurnWorker.run` (src/workers.py lines 88-91): one stop
check before each source entry (raising `RuntimeError("Stopped by user")`), then
the chunked copy with its own per-chunk checks.  Sources are represented by
their chunk counts; returns the list of fully copied sources and whether the
stop exception was raised. -/
def stage_all (files : List Nat) (stop_at k : Nat) : List Nat × Bool :=
  match files with
  | [] => ([], false)
  | c :: cs =>
    if stop_flag stop_at k then ([], true)
    else
      match copy_file_chunked c stop_at (k + 1) with
      | (true, _) => ([], true)
      | (false, k2) =>
        let rest := stage_all cs stop_at k2
        (c :: rest.1, rest.2)

/-- Number of stop checks the staging loop performs on `files` when it runs to
completion: one per entry plus `c + 1` inside each entry's chunked copy. -/
def total_checks (files : List Nat) : Nat :=
  (files.map (fun c => c + 2)).sum

/-- The exception handler of `BurnWorker.run` (src/workers.py lines 197-203):
with the stop flag set, any in-flight exception is reported as the terminal
`done` event `(False, "Stopped by user")`; otherwise the exception message is
passed through. -/
def worker_done (stop_requested : Bool) (ex_msg : String) : Bool × String :=
  if stop_requested then (false, "Stopped by user") else (false, ex_msg)

/-- The failure branch of `MainWindow._on_done` (src/main_window.py lines
1195-1197): returns the status label shown and whether a modal `Failed` error
dialog is opened. -/
def ui_on_done_failure (msg : String) : String × Bool :=
  (if msg = "Stopped by user" then "Stopped" else "Failed",
   !(msg = "Stopped by user" : Bool))

/-! ### Staging copies (`safe_copy_into_staging`, src/utils.py) -/

/-- A filesystem entry: a file with a byte size, or a directory with children. -/
inductive FsTree where
  | file (name : String) (size : Nat)
  | dir (name : String) (children : List FsTree)

/-- Base name of an entry. -/
def FsTree.name : FsTree → String
  | .file n _ => n
  | .dir n _ => n

/-- `excluded = {".venv", "venv", "__pycache__", ".mypy_cache", ".git"}`
(src/utils.py line 80); the same names feed `shutil.ignore_patterns(*excluded)`
at line 97, whose wildcard-free patterns match by name equality. -/
def excluded_names : List String :=
  [".venv", "venv", "__pycache__", ".mypy_cache", ".git"]

mutual

/-- `_copy_tree_chunked` (src/utils.py lines 54-71) viewed as the tree it
produces: files are copied as-is, and each directory level drops the children
whose names the ignore function matched before recursing into the rest. -/
def prune_excluded : FsTree → FsTree
  | .file n s => .file n s
  | .dir n cs => .dir n (prune_list cs)

/-- Children surviving the ignore filter of one `_copy_tree_chunked` level,
each copied recursively. -/
def prune_list : List FsTree → List FsTree
  | [] => []
  | c :: cs =>
    if excluded_names.contains c.name then prune_list cs
    else prune_excluded c :: prune_list cs

end

/-- `base_name = os.path.basename(src_path.rstrip("\\/")) or "ITEM"`
(src/utils.py line 79): an empty base name falls back to `"ITEM"`. -/
def base_name_of (s : String) : String :=
  if s = "" then "ITEM" else s

/-- The candidate destination names tried by `unique_name` (src/utils.py lines
84-90): `name`, then `name_1`, `name_2`, ... -/
def candidate_name (name : String) : Nat → String
  | 0 => name
  | n + 1 => name ++ "_" ++ toString (n + 1)

/-- `unique_name` (src/utils.py lines 84-90): the first candidate not already
present in the staging directory (`used` is the list of staged top-level
names).  The Python `while` loop is unbounded; since the candidates are
pairwise distinct strings, at most `used.length + 1` of them can collide, so the
bounded search below is the same function wherever the loop terminates. -/
def unique_name (used : List String) (name : String) : String :=
  match (List.range (used.length + 1)).find?
      (fun i => !(used.contains (candidate_name name i))) with
  | some i => candidate_name name i
  | none => candidate_name name (used.length + 1)

/-- `safe_copy_into_staging` (src/utils.py lines 74-104).  The staging directory
is the list of its top-level entries (destination name paired with the copied
tree), in creation order.  A source whose base name is in the exclusion set is
skipped outright (line 81); otherwise it is copied under a collision-free name,
directories with the ignore filter applied at every level below the root. -/
def safe_copy_into_staging (staging : List (String × FsTree)) (src : FsTree) :
    List (String × FsTree) :=
  let base := base_name_of src.name
  if excluded_names.contains base then staging
  else
    let dst := unique_name (staging.map Prod.fst) base
    match src with
    | .file _ sz => staging ++ [(dst, .file dst sz)]
    | .dir _ cs => staging ++ [(dst, .dir dst (prune_list cs))]

/-! ### Helper lemmas -/

theorem normalize_mask_of_ne {m : Nat} (h : m ≠ 0) : normalize_mask m = m := by
  simp [normalize_mask, h]

theorem effective_mask_of_large (mask largest : Nat)
    (h : max_iso_file_bytes ≤ largest) :
    effective_mask mask largest =
      if normalize_mask mask &&& (FS_ISO9660 ||| FS_JOLIET) ≠ 0 ∨
          normalize_mask mask &&& FS_UDF = 0
      then (FS_UDF, 1) else (normalize_mask mask, 0) := by
  rw [effective_mask, if_pos h]

theorem effective_mask_of_small (mask largest : Nat)
    (h : largest < max_iso_file_bytes) :
    effective_mask mask largest = (normalize_mask mask, 0) := by
  rw [effective_mask, if_neg (by omega)]

/-! ### Claims -/

/-- C1 counterexample: with requested mask ISO9660 and largest staged file of
exactly `4 GiB − 1` bytes, the claimed threshold (`≥ 4 GiB − 1`) demands the
UDF-only mask, but the code's threshold is `>= 4 * 1024**3` (4 GiB), so the
mask is returned unchanged and no escalation happens. -/
theorem effective_mask_four_gib_minus_one :
    effective_mask FS_ISO9660 (4 * 1024 ^ 3 - 1) = (FS_ISO9660, 0) ∧
    (effective_mask FS_ISO9660 (4 * 1024 ^ 3 - 1)).1 ≠ FS_UDF := by
  constructor <;> decide

/-- C1 (amended): the escalation threshold is `largest ≥ 4 GiB` (4 × 1024³
bytes), not `4 GiB − 1`.  For every nonzero requested mask: if the largest
staged file is at least 4 GiB and the mask includes the ISO9660 or Joliet bit
or lacks the UDF bit, the effective mask is UDF-only; if the largest file is
below 4 GiB, or the mask has no ISO9660/Joliet bit and has the UDF bit, the
requested mask is returned unchanged.  A largest file of exactly 4 GiB − 1
bytes never triggers the escalation. -/
theorem effective_mask_escalation (mask largest : Nat) (hm : mask ≠ 0) :
    ((4 * 1024 ^ 3 ≤ largest ∧
        (mask &&& (FS_ISO9660 ||| FS_JOLIET) ≠ 0 ∨ mask &&& FS_UDF = 0)) →
      (effective_mask mask largest).1 = FS_UDF) ∧
    (largest < 4 * 1024 ^ 3 → (effective_mask mask largest).1 = mask) ∧
    ((mask &&& (FS_ISO9660 ||| FS_JOLIET) = 0 ∧ mask &&& FS_UDF ≠ 0) →
      (effective_mask mask largest).1 = mask) := by
  refine ⟨fun ⟨hl, hc⟩ => ?_, fun hl => ?_, fun ⟨h3, h4⟩ => ?_⟩
  · rw [effective_mask_of_large mask largest hl, normalize_mask_of_ne hm, if_pos hc]
  · rw [effective_mask_of_small mask largest hl, normalize_mask_of_ne hm]
  · by_cases hl : max_iso_file_bytes ≤ largest
    · rw [effective_mask_of_large mask largest hl, normalize_mask_of_ne hm,
        if_neg (by simp [h3, h4])]
    · rw [effective_mask_of_small mask largest (by omega), normalize_mask_of_ne hm]

/-- C1 witness: the amended theorem applied at mask = ISO9660, largest = 4 GiB. -/
theorem effective_mask_escalation_witness :
    (effective_mask 1 (4 * 1024 ^ 3)).1 = FS_UDF :=
  (effective_mask_escalation 1 (4 * 1024 ^ 3) (by decide)).1 ⟨by decide, by decide⟩

/-- C2 counterexample: with the requested mask already UDF-only and a 4 GiB
largest file, the code leaves the mask alone and emits no informational
notice, whereas the claim demands exactly one notice. -/
theorem effective_mask_udf_only_no_notice :
    effective_mask FS_UDF (4 * 1024 ^ 3) = (FS_UDF, 0) ∧
    (effective_mask FS_UDF (4 * 1024 ^ 3)).2 ≠ 1 := by
  constructor <;> decide

/-- C2 (amended): for every nonzero requested mask drawn from the
ISO9660/Joliet/UDF bits and a largest staged file of at least 4 GiB, the
effective mask is UDF-only; exactly one informational notice is emitted when
the requested mask differs from UDF-only, and none when it is already
UDF-only. -/
theorem effective_mask_large_file_udf (mask largest : Nat) (hm : mask ≠ 0)
    (hbits : mask &&& (FS_ISO9660 ||| FS_JOLIET ||| FS_UDF) = mask)
    (hl : 4 * 1024 ^ 3 ≤ largest) :
    (effective_mask mask largest).1 = FS_UDF ∧
    (effective_mask mask largest).2 = (if mask = FS_UDF then 0 else 1) := by
  have h7 : mask < 8 := by
    calc mask = mask &&& 7 := hbits.symm
    _ ≤ 7 := Nat.and_le_right
    _ < 8 := by omega
  rw [effective_mask_of_large mask largest hl, normalize_mask_of_ne hm]
  interval_cases mask <;> simp_all <;> decide

/-- C2 witness: the amended theorem applied at mask = ISO9660+Joliet,
largest = 4 GiB. -/
theorem effective_mask_large_file_udf_witness :
    (effective_mask 3 (4 * 1024 ^ 3)).1 = FS_UDF ∧
    (effective_mask 3 (4 * 1024 ^ 3)).2 = 1 := by
  have h := effective_mask_large_file_udf 3 (4 * 1024 ^ 3) (by decide) (by decide)
    (by decide)
  simpa using h

/-- C3 counterexample: at estimatedBytes = 0 and capacityBytes = 1 the headroom
(32 MiB) exceeds the capacity; the claimed formula
`estimatedBytes > capacityBytes − headroom` is satisfied, yet the code returns
`false` because it clamps the usable size at zero
(`size > max(0, cap − headroom)`). -/
theorem over_capacity_formula_gap :
    is_over_capacity 0 1 = false ∧
    ((0 : Int) > (1 : Int) - max (32 * 1024 * 1024) ((1 * 25 / 10000 : Nat) : Int)) := by
  constructor <;> decide

/-- C3 (amended): the over-capacity check returns true iff
`estimatedBytes > max(0, capacityBytes − headroom)` with
`headroom = max(32 MiB, ⌊capacityBytes × 0.0025⌋)` — the usable size is clamped
at zero, so when the headroom exceeds the capacity the check requires
`estimatedBytes > 0` rather than holding everywhere.  The concrete scenario is
unaffected: capacity 700,000,000 with estimate 690,000,000 gives headroom
33,554,432, usable 666,445,568, over-capacity true, with the boundary exact. -/
theorem over_capacity_clamped :
    (∀ size cap : Nat, 0 < cap →
      (is_over_capacity size cap = true ↔
        (size : Int) > max 0 ((cap : Int) -
          max (32 * 1024 * 1024) ((cap * 25 / 10000 : Nat) : Int)))) ∧
    is_over_capacity 690000000 700000000 = true ∧
    is_over_capacity 666445568 700000000 = false ∧
    is_over_capacity 666445569 700000000 = true := by
  refine ⟨fun size cap hcap => ?_, by decide, by decide, by decide⟩
  rw [is_over_capacity, if_neg (by omega)]
  simp only [capacity_headroom_bytes, decide_eq_true_eq]
  omega

/-- C3 witness: the amended iff applied at the scenario input. -/
theorem over_capacity_clamped_witness :
    is_over_capacity 690000000 700000000 = true :=
  (over_capacity_clamped.1 690000000 700000000 (by decide)).mpr (by decide)

/-- C4 counterexample: at contentBytes = 0 in the burn-files-directly mode the
code returns 0 (the `size <= 0` guard), not `0 + max(128 MiB, 7% of 0)` =
134,217,728 as the claim's formula demands. -/
theorem estimate_image_size_zero_gap :
    estimate_image_size false false 0 ≠ 0 + max (128 * 1024 * 1024) (0 * 7 / 100) := by
  decide

/-- C4 (amended): the on-disc estimate equals contentBytes unchanged in the
burn-existing-image and create-image modes; in the burn-files-directly mode it
equals `contentBytes + max(128 MiB, ⌊7% of contentBytes⌋)` for positive
contentBytes and 0 at contentBytes = 0; for contentBytes = 3,500,000 in direct
mode it is 3,500,000 + 134,217,728. -/
theorem estimate_image_size_modes :
    (∀ size : Nat, estimate_image_size true false size = size) ∧
    (∀ (b : Bool) (size : Nat), estimate_image_size b true size = size) ∧
    (∀ size : Nat, 0 < size →
      estimate_image_size false false size =
        size + max (128 * 1024 * 1024) (size * 7 / 100)) ∧
    estimate_image_size false false 0 = 0 ∧
    estimate_image_size false false 3500000 = 3500000 + 134217728 := by
  refine ⟨fun size => ?_, fun b size => ?_, fun size h => ?_, by decide, by decide⟩
  · rw [estimate_image_size]
    split <;> simp_all
  · rw [estimate_image_size]
    cases b <;> split <;> simp_all
  · rw [estimate_image_size, if_neg (by omega)]
    simp

/-- C4 witness: the amended direct-mode formula applied at the scenario input. -/
theorem estimate_image_size_modes_witness :
    estimate_image_size false false 3500000 =
      3500000 + max (128 * 1024 * 1024) (3500000 * 7 / 100) :=
  estimate_image_size_modes.2.2.1 3500000 (by decide)

/-- C5: for a fixed mode, the on-disc size estimate is monotonically
non-decreasing in contentBytes, across the zero boundary and across the point
where 7% of contentBytes overtakes 128 MiB. -/
theorem estimate_image_size_mono (use_iso is_create : Bool) (a b : Nat)
    (hab : a ≤ b) :
    estimate_image_size use_iso is_create a ≤ estimate_image_size use_iso is_create b := by
  have hid : ∀ n : Nat, (if n = 0 then 0 else n) = n := by
    intro n; split <;> omega
  cases use_iso <;> cases is_create <;>
    simp only [estimate_image_size, Bool.and_self, Bool.not_true, Bool.not_false,
      Bool.and_true, Bool.and_false, Bool.true_and, Bool.false_and, if_true, if_false,
      Bool.false_eq_true, ite_false, ite_true] <;>
    try simpa [hid] using hab
  -- remaining case: direct-burn mode (use_iso = false, is_create = false)
  by_cases ha : a = 0
  · simp [ha]
  · have hb : ¬ b = 0 := by omega
    rw [if_neg ha, if_neg hb]
    have h7 : a * 7 / 100 ≤ b * 7 / 100 :=
      Nat.div_le_div_right (Nat.mul_le_mul_right 7 hab)
    exact Nat.add_le_add hab (max_le_max le_rfl h7)

/-- C5 witness: monotonicity applied across the zero boundary in direct mode. -/
theorem estimate_image_size_mono_witness :
    estimate_image_size false false 0 ≤ estimate_image_size false false 1 :=
  estimate_image_size_mono false false 0 1 (by decide)

theorem emit_progress_info_non_writing (total start_time : ℚ)
    (max_speed : Option ℚ) (st : RateState) (now percent : ℚ)
    (status : Option String) (h : is_writing_status status = false) :
    emit_progress_info total start_time max_speed st now percent status =
      ({ st with speedHistory := [] }, (0, none)) := by
  rw [emit_progress_info, h]
  rfl

/-- C6: any observation whose phase is a non-transfer activity (its label does
not contain "writing data", as with the action labels "Unknown/Idle",
"Validating media", "Formatting media", "Finalizing session" and "Verifying")
clears the sample window and publishes exactly speed = 0 with no ETA; and in
the concrete scenario (total 1,000,000,000 bytes, start t = 0, observations
(t=1s, 10%), (t=2s, 30%), (t=3s, 30%, phase "Finalizing")) the published speed
is non-zero after each of the first two observations and exactly `(0, none)`
with a cleared window after the third. -/
theorem progress_info_non_transfer :
    (∀ (total start_time : ℚ) (max_speed : Option ℚ) (st : RateState)
        (now percent : ℚ) (s : String), is_writing_status (some s) = false →
      emit_progress_info total start_time max_speed st now percent (some s) =
        ({ st with speedHistory := [] }, (0, none))) ∧
    is_writing_status (some "Unknown/Idle") = false ∧
    is_writing_status (some "Validating media") = false ∧
    is_writing_status (some "Formatting media") = false ∧
    is_writing_status (some "Finalizing session") = false ∧
    is_writing_status (some "Verifying") = false ∧
    is_writing_status (some "Writing data") = true ∧
    (emit_progress_info 1000000000 0 none ⟨[], 0, 0⟩ 1 10 none).2.1 > 0 ∧
    (emit_progress_info 1000000000 0 none
      (emit_progress_info 1000000000 0 none ⟨[], 0, 0⟩ 1 10 none).1 2 30 none).2.1 > 0 ∧
    emit_progress_info 1000000000 0 none
        (emit_progress_info 1000000000 0 none
          (emit_progress_info 1000000000 0 none ⟨[], 0, 0⟩ 1 10 none).1 2 30 none).1
        3 30 (some "Finalizing") =
      (⟨[], 30, 2⟩, (0, none)) := by
  have h1 : emit_progress_info 1000000000 0 none ⟨[], 0, 0⟩ 1 10 none =
      (⟨[100000000], 10, 1⟩, (100000000, some 9)) := by
    rw [emit_progress_info]
    norm_num [is_writing_status, push_speed_sample, max_def, min_def]
  have h2 : emit_progress_info 1000000000 0 none ⟨[100000000], 10, 1⟩ 2 30 none =
      (⟨[100000000, 200000000], 30, 2⟩, (150000000, some (14 / 3))) := by
    rw [emit_progress_info]
    norm_num [is_writing_status, push_speed_sample, max_def, min_def]
  refine ⟨fun total start_time max_speed st now percent s h =>
      emit_progress_info_non_writing total start_time max_speed st now percent (some s) h,
    by decide, by decide, by decide, by decide, by decide, by decide,
    ?_, ?_, ?_⟩
  · rw [h1]
    norm_num
  · rw [h1, h2]
    norm_num
  · rw [h1, h2]
    exact emit_progress_info_non_writing 1000000000 0 none
      ⟨[100000000, 200000000], 30, 2⟩ 3 30 (some "Finalizing") (by decide)

/-- C6 witness: the clearing property applied at a concrete non-transfer
observation. -/
theorem progress_info_non_transfer_witness :
    emit_progress_info 500 0 none ⟨[7], 10, 1⟩ 2 20 (some "Verifying") =
      (⟨[], 10, 1⟩, (0, none)) :=
  progress_info_non_transfer.1 500 0 none ⟨[7], 10, 1⟩ 2 20 "Verifying" (by decide)

/-- C7: the size-limit configuration computes the estimated block count as the
ceiling of `totalBytes / blockSize` (it is the least `c` with
`totalBytes ≤ blockSize * c`), sets the working allowance to
`max(current, 2 × estimated blocks + (1 MiB / blockSize))`, never below the
current allowance, and across repeated calls within one job the configured
allowance never decreases, whatever the sequence of totalBytes values. -/
theorem configure_size_limits_spec :
    (∀ total bs c : Nat, 0 < bs → (est_blocks total bs ≤ c ↔ total ≤ bs * c)) ∧
    (∀ total bs cur : Nat, 0 < bs →
      configure_size_limits total bs cur =
        max cur (est_blocks total bs * 2 + 1024 * 1024 / bs)) ∧
    (∀ total bs cur : Nat, cur ≤ configure_size_limits total bs cur) ∧
    (∀ (bs init : Nat) (totals extra : List Nat),
      allowance_after bs totals init ≤ allowance_after bs (totals ++ extra) init) := by
  have hstep : ∀ total bs cur : Nat, cur ≤ configure_size_limits total bs cur :=
    fun total bs cur => le_max_left _ _
  have hinit : ∀ (l : List Nat) (bs i : Nat), i ≤ allowance_after bs l i := by
    intro l
    induction l with
    | nil => intro bs i; exact le_rfl
    | cons t l ih =>
      intro bs i
      exact le_trans (hstep t bs i) (ih bs (configure_size_limits t bs i))
  refine ⟨fun total bs c hbs => ?_, fun total bs cur hbs => ?_, hstep,
    fun bs init totals extra => ?_⟩
  · rw [est_blocks, Nat.div_le_iff_le_mul_add_pred hbs]
    omega
  · rw [configure_size_limits, effective_block_size, if_neg (by omega)]
  · rw [allowance_after, allowance_after, List.foldl_append]
    exact hinit extra bs _

/-- C7 witness: the ceiling characterization applied at total = 3,500,000 and
block size 2048 (1709 blocks). -/
theorem configure_size_limits_spec_witness :
    est_blocks 3500000 2048 ≤ 1709 ∧ 3500000 ≤ 2048 * 1709 :=
  ⟨(configure_size_limits_spec.1 3500000 2048 1709 (by decide)).mpr (by decide),
   by decide⟩

theorem copy_file_chunked_spec (c : Nat) : ∀ stop_at k : Nat,
    (stop_at ≤ k + c → (copy_file_chunked c stop_at k).1 = true) ∧
    (k + c < stop_at → copy_file_chunked c stop_at k = (false, k + c + 1)) := by
  induction c with
  | zero =>
    intro stop_at k
    constructor
    · intro h
      rw [copy_file_chunked, if_pos (by simpa [stop_flag] using (by omega : stop_at ≤ k))]
    · intro h
      rw [copy_file_chunked, if_neg (by simp [stop_flag]; omega)]
  | succ c ih =>
    intro stop_at k
    constructor
    · intro h
      by_cases hs : stop_at ≤ k
      · rw [copy_file_chunked, if_pos (by simpa [stop_flag] using hs)]
      · rw [copy_file_chunked, if_neg (by simp [stop_flag]; omega)]
        exact (ih stop_at (k + 1)).1 (by omega)
    · intro h
      rw [copy_file_chunked, if_neg (by simp [stop_flag]; omega)]
      have := (ih stop_at (k + 1)).2 (by omega)
      rw [this]
      congr 1
      omega

theorem total_checks_cons (c : Nat) (cs : List Nat) :
    total_checks (c :: cs) = c + 2 + total_checks cs := by
  simp [total_checks]

theorem stage_all_stopped (files : List Nat) : ∀ t k : Nat, k ≤ t →
    t < k + total_checks files →
    (stage_all files t k).2 = true ∧
    ∃ n, (stage_all files t k).1 = files.take n ∧
      k + total_checks (files.take n) ≤ t := by
  induction files with
  | nil =>
    intro t k hk ht
    simp [total_checks] at ht
    omega
  | cons c cs ih =>
    intro t k hk ht
    rw [total_checks_cons] at ht
    by_cases hstop : t ≤ k
    · rw [stage_all, if_pos (by simpa [stop_flag] using hstop)]
      exact ⟨rfl, 0, rfl, by simpa [total_checks] using hk⟩
    · rw [stage_all, if_neg (by simp [stop_flag]; omega)]
      by_cases hc : t ≤ k + 1 + c
      · have hfst := (copy_file_chunked_spec c t (k + 1)).1 (by omega)
        rcases hp : copy_file_chunked c t (k + 1) with ⟨b, k2⟩
        rw [hp] at hfst
        cases b with
        | false => simp at hfst
        | true =>
          exact ⟨rfl, 0, rfl, by simp [total_checks]; omega⟩
      · have hcopy := (copy_file_chunked_spec c t (k + 1)).2 (by omega)
        rw [hcopy]
        obtain ⟨h2, n, hn, hle⟩ := ih t (k + 1 + c + 1) (by omega) (by omega)
        refine ⟨h2, n + 1, ?_, ?_⟩
        · rw [List.take_succ_cons]
          exact congrArg (c :: ·) hn
        · rw [List.take_succ_cons, total_checks_cons]
          omega

/-- C8: when the cooperative stop flag is set during a run (observed at check
`t`, with the staging loop checking before every entry and between 1 MiB copy
chunks), the staging loop raises, the copied entries are exactly a prefix of
the sources whose checks all happened before the observation (no further files
are copied), the exception handler emits the single terminal done event
`(false, "Stopped by user")` whatever exception message was in flight, and the
UI reports status "Stopped" with no Failed error dialog. -/
theorem stop_flag_stops_job (files : List Nat) (t : Nat)
    (h : t < total_checks files) :
    (stage_all files t 0).2 = true ∧
    (∃ n, (stage_all files t 0).1 = files.take n ∧
      total_checks (files.take n) ≤ t) ∧
    (∀ ex_msg : String, worker_done true ex_msg = (false, "Stopped by user")) ∧
    ui_on_done_failure "Stopped by user" = ("Stopped", false) := by
  obtain ⟨h2, n, hn, hle⟩ := stage_all_stopped files t 0 (Nat.zero_le t) (by omega)
  exact ⟨h2, ⟨n, hn, by omega⟩, fun ex_msg => rfl, by decide⟩

/-- C8 witness: three files of 3, 2 and 5 chunks with the stop request arriving
at check 5: the first file (checks 0–4) is fully copied, the second is
abandoned, and the run reports "Stopped by user". -/
theorem stop_flag_stops_job_witness :
    (stage_all [3, 2, 5] 5 0).2 = true := (stop_flag_stops_job [3, 2, 5] 5 (by decide)).1

theorem candidate_name_one (name : String) : candidate_name name 1 = name ++ "_1" := by
  show name ++ "_" ++ toString 1 = name ++ "_1"
  rw [String.append_assoc]
  rfl

theorem name_ne_append_one (name : String) : name ≠ name ++ "_1" := by
  intro h
  have h1 := congrArg String.length h
  rw [String.length_append] at h1
  have h2 : ("_1" : String).length = 2 := rfl
  omega

theorem contains_false_iff (l : List String) (a : String) :
    l.contains a = false ↔ a ∉ l := by
  rw [Bool.eq_false_iff]
  exact not_congr (List.elem_iff : l.contains a = true ↔ a ∈ l)

theorem unique_name_of_not_mem (used : List String) (name : String)
    (h : used.contains name = false) : unique_name used name = name := by
  rw [unique_name]
  have hfind : (List.range (used.length + 1)).find?
      (fun i => !(used.contains (candidate_name name i))) = some 0 := by
    rw [List.range_succ_eq_map]
    refine List.find?_cons_of_pos _ ?_
    simp only [candidate_name]
    simp
    exact (contains_false_iff used name).mp h
  rw [hfind]
  rfl

theorem unique_name_of_mem_one (used : List String) (name : String)
    (h0 : used.contains name = true) (h1 : used.contains (name ++ "_1") = false) :
    unique_name used name = name ++ "_1" := by
  obtain ⟨a, tl, rfl⟩ : ∃ a tl, used = a :: tl := by
    cases used with
    | nil => simp at h0
    | cons a tl => exact ⟨a, tl, rfl⟩
  rw [unique_name]
  have hmem : name ∈ a :: tl := List.elem_iff.mp h0
  have hnot := (contains_false_iff (a :: tl) (name ++ "_1")).mp h1
  have hfind : (List.range ((a :: tl).length + 1)).find?
      (fun i => !((a :: tl).contains (candidate_name name i))) = some 1 := by
    show (List.range (tl.length + 1 + 1)).find? _ = some 1
    rw [List.range_succ_eq_map, List.range_succ_eq_map, List.map_cons]
    rw [List.find?_cons_of_neg _ (by
      simp [candidate_name]
      intro hne
      rcases List.mem_cons.mp hmem with hh | hh
      · exact absurd hh hne
      · exact hh)]
    refine List.find?_cons_of_pos _ ?_
    show (!((a :: tl).contains (candidate_name name 1))) = true
    rw [candidate_name_one]
    simp only [Bool.not_eq_true']
    exact (contains_false_iff _ _).mpr hnot
  rw [hfind]
  exact candidate_name_one name

theorem safe_copy_map_fst (staging : List (String × FsTree)) (src : FsTree)
    (hex : excluded_names.contains (base_name_of src.name) = false) :
    (safe_copy_into_staging staging src).map Prod.fst =
      staging.map Prod.fst ++
        [unique_name (staging.map Prod.fst) (base_name_of src.name)] := by
  have hex2 := (contains_false_iff _ _).mp hex
  cases src <;> simp_all [safe_copy_into_staging, FsTree.name]

/-- C9 counterexample: adding the same `.git` directory twice stages nothing at
all (the top-level exclusion check skips it), not the two distinct entries
`.git` and `.git_1` the claim demands for every source name. -/
theorem staging_excluded_name_twice :
    (safe_copy_into_staging (safe_copy_into_staging [] (FsTree.dir ".git" []))
      (FsTree.dir ".git" [])).length = 0 := rfl

/-- C9 (amended): for a source whose base name is outside the exclusion set and
for a staging state containing neither `name` nor `name_1`, copying the same
source twice produces exactly the two distinct staged entries `name` and
`name_1`, appended in order and overwriting nothing; a source whose base name
is in the exclusion set stages nothing (see the counterexample).  For later
repeats and occupied names the destination is `name_N` with N the smallest
positive integer making the candidate unused, per `unique_name`. -/
theorem staging_same_source_twice (staging : List (String × FsTree)) (src : FsTree)
    (hex : excluded_names.contains (base_name_of src.name) = false)
    (h0 : (staging.map Prod.fst).contains (base_name_of src.name) = false)
    (h1 : (staging.map Prod.fst).contains (base_name_of src.name ++ "_1") = false) :
    ((safe_copy_into_staging staging src).map Prod.fst =
      staging.map Prod.fst ++ [base_name_of src.name]) ∧
    ((safe_copy_into_staging (safe_copy_into_staging staging src) src).map Prod.fst =
      staging.map Prod.fst ++
        [base_name_of src.name, base_name_of src.name ++ "_1"]) ∧
    base_name_of src.name ≠ base_name_of src.name ++ "_1" := by
  have hone : (safe_copy_into_staging staging src).map Prod.fst =
      staging.map Prod.fst ++ [base_name_of src.name] := by
    rw [safe_copy_map_fst staging src hex, unique_name_of_not_mem _ _ h0]
  refine ⟨hone, ?_, name_ne_append_one _⟩
  rw [safe_copy_map_fst _ src hex, hone]
  have hmem : (staging.map Prod.fst ++ [base_name_of src.name]).contains
      (base_name_of src.name) = true := by
    simp [List.elem_iff]
  have hnot : (staging.map Prod.fst ++ [base_name_of src.name]).contains
      (base_name_of src.name ++ "_1") = false := by
    rw [contains_false_iff] at h1 ⊢
    simp only [List.mem_append, List.mem_singleton]
    rintro (hc | hc)
    · exact h1 hc
    · exact name_ne_append_one _ hc.symm
  rw [unique_name_of_mem_one _ _ hmem hnot, List.append_assoc]
  rfl

/-- C9 witness: the amended theorem applied to an empty staging area and a
plain file source. -/
theorem staging_same_source_twice_witness :
    (safe_copy_into_staging (safe_copy_into_staging [] (FsTree.file "data.bin" 7))
      (FsTree.file "data.bin" 7)).map Prod.fst = ["data.bin", "data.bin_1"] := by
  have h := staging_same_source_twice [] (FsTree.file "data.bin" 7)
    (by decide) (by decide) (by decide)
  simpa using h.2.1

theorem prune_excluded_name (c : FsTree) : (prune_excluded c).name = c.name := by
  cases c <;> rfl

/-- C10 counterexample: the explicitly added top-level source `.git` is not
staged at all — the exclusion set is applied to the top-level base name too,
not only while recursively copying directory contents. -/
theorem top_level_excluded_not_staged :
    safe_copy_into_staging [] (FsTree.dir ".git" []) = [] := rfl

/-- C10 (amended): the fixed exclusion set is applied both to the top-level
base name and during recursive directory copy: a top-level source whose base
name is in the exclusion set is skipped entirely (nothing staged), any other
top-level source contributes exactly one new staged entry, and no child kept by
the recursive directory copy bears an excluded name. -/
theorem exclusion_scope :
    (∀ (staging : List (String × FsTree)) (src : FsTree),
      excluded_names.contains (base_name_of src.name) = true →
      safe_copy_into_staging staging src = staging) ∧
    (∀ (staging : List (String × FsTree)) (src : FsTree),
      excluded_names.contains (base_name_of src.name) = false →
      ∃ e, safe_copy_into_staging staging src = staging ++ [e]) ∧
    (∀ cs : List FsTree, ∀ d ∈ prune_list cs,
      excluded_names.contains d.name = false) := by
  refine ⟨fun staging src hex => ?_, fun staging src hex => ?_, fun cs => ?_⟩
  · have hex2 : base_name_of src.name ∈ excluded_names := List.elem_iff.mp hex
    rw [safe_copy_into_staging]
    simp [hex2]
  · have hex2 := (contains_false_iff _ _).mp hex
    cases src with
    | file n sz =>
      refine ⟨(unique_name (staging.map Prod.fst) (base_name_of n),
        FsTree.file (unique_name (staging.map Prod.fst) (base_name_of n)) sz), ?_⟩
      rw [safe_copy_into_staging]
      simp only [FsTree.name] at hex2 ⊢
      simp [hex2]
    | dir n cs =>
      refine ⟨(unique_name (staging.map Prod.fst) (base_name_of n),
        FsTree.dir (unique_name (staging.map Prod.fst) (base_name_of n))
          (prune_list cs)), ?_⟩
      rw [safe_copy_into_staging]
      simp only [FsTree.name] at hex2 ⊢
      simp [hex2]
  · induction cs with
    | nil => simp [prune_list]
    | cons c cs ih =>
      rw [prune_list]
      split
      · exact ih
      · rename_i hc
        intro d hd
        rcases List.mem_cons.mp hd with hd | hd
        · subst hd
          rw [prune_excluded_name]
          exact Bool.not_eq_true _ ▸ Bool.eq_false_iff.mpr (by simpa using hc)
        · exact ih d hd

/-- C10 witness: the top-level exclusion applied to a `.venv` source, and the
newly-staged-entry conclusion applied to an ordinary file. -/
theorem exclusion_scope_witness :
    safe_copy_into_staging [] (FsTree.dir ".venv" []) = [] :=
  exclusion_scope.1 [] (FsTree.dir ".venv" []) (by decide)

end CDBurner
